import Mathlib

/-!
Verification of the inliner-ai/mcp-server tool source (src/index.ts).

The definitions below are a shallow embedding of the pure logic of the
server: the slug sanitization pipelines, the image-path builder and the
source-URL resolver of `edit_image`, the bounded polling loop shared by
`generate_image` / `create_image` / `edit_image`, and the error-handling
shape of the read-only listing tools.  Strings are modelled as Lean
`String` / `List Char` (the source operates on ASCII-relevant JS strings;
`toLowerCase` is modelled on its ASCII fragment, which is the only part
the sanitizers can observe because every non-`[a-z0-9-]` character is
replaced by a hyphen immediately afterwards).
-/

/-! ## Character-level helpers (index.ts sanitization chains) -/

/-- Membership in the character class `[a-z0-9-]` of the regexes at
index.ts lines 87, 96, 149, 311, 501 and 647. -/
def isAllowed (c : Char) : Bool :=
  (97 ≤ c.toNat && c.toNat ≤ 122) || (48 ≤ c.toNat && c.toNat ≤ 57) || c.toNat == 45

/-- Model of JS `String.prototype.toLowerCase` on one character (ASCII
fragment; `A`-`Z` map to `a`-`z`, everything else is untouched). -/
def lowerChar (c : Char) : Char :=
  if 65 ≤ c.toNat ∧ c.toNat ≤ 90 then Char.ofNat (c.toNat + 32) else c

/-- One character of `.replace(/[^a-z0-9-]/g, "-")`. -/
def replaceChar (c : Char) : Char :=
  if isAllowed c then c else '-'

/-- Recursive worker for the hyphen-run replace (regex "-+" to "-"): the flag records whether
the previous input character was part of a hyphen run already emitted. -/
def collapseAux : List Char → Bool → List Char
  | [], _ => []
  | c :: rest, prev =>
    if c = '-' then
      if prev then collapseAux rest true
      else '-' :: collapseAux rest true
    else c :: collapseAux rest false

/-- Model of the hyphen-run replace (regex "-+" to "-"): every maximal run of hyphens becomes
a single hyphen. -/
def collapseHyphens (l : List Char) : List Char :=
  collapseAux l false

/-- Remove a single leading hyphen (the `^-` alternative of
`.replace(/^-|-$/g, "")`). -/
def dropLeadHyphen : List Char → List Char
  | [] => []
  | c :: rest => if c = '-' then rest else c :: rest

/-- Remove a single trailing hyphen (the `-$` alternative of
`.replace(/^-|-$/g, "")`). -/
def dropTrailHyphen : List Char → List Char
  | [] => []
  | [c] => if c = '-' then [] else [c]
  | c :: rest => c :: dropTrailHyphen rest

/-- Model of `.replace(/^-|-$/g, "")`: strips one leading and one
trailing hyphen. -/
def stripEdges (l : List Char) : List Char :=
  dropTrailHyphen (dropLeadHyphen l)

/-- No two adjacent hyphens occur in the list. -/
def noDouble : List Char → Bool
  | [] => true
  | [_] => true
  | a :: b :: rest => !(a = '-' && b = '-') && noDouble (b :: rest)

/-- The list does not start with a hyphen. -/
def noLead : List Char → Bool
  | [] => true
  | c :: _ => c != '-'

/-- The list does not end with a hyphen. -/
def noTrail : List Char → Bool
  | [] => true
  | [c] => c != '-'
  | _ :: rest => noTrail rest

/-! ## The four sanitization sites -/

/-- Shared head of every sanitization chain:
lowercase, then replace every character outside `[a-z0-9-]` with a
hyphen, then collapse hyphen runs. -/
def sanitizeCore (s : String) : List Char :=
  collapseHyphens ((s.data.map lowerChar).map replaceChar)

/-- Description slug, index.ts lines 85-90 (identically 147-152 and
309-314): core chain, then `.replace(/^-|-$/g, "")`, then `.slice(0, 100)`. -/
def sanitizeDescription (s : String) : String :=
  String.mk ((stripEdges (sanitizeCore s)).take 100)

/-- Edit slug of `generate_image_url`, index.ts lines 94-97: the chain
stops after collapsing hyphen runs (no strip, no truncation). -/
def sanitizeEditUrl (s : String) : String :=
  String.mk (sanitizeCore s)

/-- Edit-instruction slug of `edit_image`, index.ts lines 645-649: core
chain plus edge strip, no truncation. -/
def sanitizeEditInstruction (s : String) : String :=
  String.mk (stripEdges (sanitizeCore s))

/-- Upload-prompt slug of `edit_image`, index.ts lines 499-503: same
chain as the edit-instruction slug (strip, no truncation). -/
def sanitizeUploadPrompt (s : String) : String :=
  String.mk (stripEdges (sanitizeCore s))

example : sanitizeDescription "Happy Duck!!" = "happy-duck" := by decide
example : sanitizeEditUrl "Blue!" = "blue-" := by decide
example : sanitizeEditInstruction "Make it Blue" = "make-it-blue" := by decide

/-! ## Image paths (generate_image lines 154-156) and the edit_image
source resolver (lines 579-639) -/

/-- Fuel-driven worker extracting decimal digits least significant
first; the fuel only has to dominate the number itself. -/
def natDigitsRevFuel : Nat → Nat → List Char
  | 0, _ => []
  | fuel + 1, n =>
    if n = 0 then [] else Nat.digitChar (n % 10) :: natDigitsRevFuel fuel (n / 10)

/-- Decimal digit characters, little-endian (least significant first). -/
def natDigitsRev (n : Nat) : List Char :=
  natDigitsRevFuel n n

/-- Model of JS number-to-string interpolation for a natural number
(standard decimal notation). -/
def natToDecimal (n : Nat) : List Char :=
  if n = 0 then ['0'] else (natDigitsRev n).reverse

/-- Model of JS number-to-string interpolation, as a `String`. -/
def numToString (n : Nat) : String :=
  String.mk (natToDecimal n)

/-- Decimal digit test, the regex class `\d`. -/
def isDigitChar (c : Char) : Bool :=
  48 ≤ c.toNat && c.toNat ≤ 57

/-- Model of `parseInt` on the all-digit capture of the filename regex. -/
def digitsToNat (l : List Char) : Nat :=
  l.foldl (fun a c => 10 * a + (c.toNat - 48)) 0

instance {ε α : Type} [DecidableEq ε] [DecidableEq α] : DecidableEq (Except ε α) := fun x y =>
  match x, y with
  | .ok a, .ok b => if h : a = b then .isTrue (by rw [h]) else .isFalse (by simp [h])
  | .error a, .error b => if h : a = b then .isTrue (by rw [h]) else .isFalse (by simp [h])
  | .ok _, .error _ => .isFalse (by simp)
  | .error _, .ok _ => .isFalse (by simp)

/-- The two output formats accepted by the tools (zod enum at lines 73-76). -/
inductive ImgFormat where
  | png
  | jpg
deriving DecidableEq

/-- String form of a format, as interpolated into paths. -/
def ImgFormat.str : ImgFormat → String
  | .png => "png"
  | .jpg => "jpg"

/-- Parameters of a generate request (zod schema lines 119-145; width and
height are integers in `[100, 4096]`, kept as a side condition). -/
structure ImageSpec where
  project : String
  description : String
  width : Nat
  height : Nat
  fmt : ImgFormat

/-- The `pathPart` template of index.ts line 155:
`{project}/{sanitized}_{width}x{height}.{format}`. -/
def buildImagePath (spec : ImageSpec) : String :=
  spec.project ++ "/" ++ sanitizeDescription spec.description ++ "_" ++
    numToString spec.width ++ "x" ++ numToString spec.height ++ "." ++ spec.fmt.str

/-- Model of `path.split("/")` followed by taking the last element
(index.ts lines 592-595): the suffix after the last slash. -/
def lastSegment (l : List Char) : List Char :=
  (l.reverse.takeWhile (fun c => c != '/')).reverse

/-- Tail of the filename regex of line 596: matches
digits, `x`, digits, `.`, then exactly `png` or `jpg`, against the whole
remaining input, returning the parsed dimensions and the extension. -/
def matchDims (l : List Char) : Option (Nat × Nat × String) :=
  let d1 := l.takeWhile isDigitChar
  let r1 := l.dropWhile isDigitChar
  if d1 = [] then none
  else
    match r1 with
    | 'x' :: r2 =>
      let d2 := r2.takeWhile isDigitChar
      let r3 := r2.dropWhile isDigitChar
      if d2 = [] then none
      else
        match r3 with
        | '.' :: ext =>
          if ext = ['p', 'n', 'g'] ∨ ext = ['j', 'p', 'g'] then
            some (digitsToNat d1, digitsToNat d2, String.mk ext)
          else none
        | _ => none
    | _ => none

/-- Greedy worker for the line-596 regex: the first capture group takes
the longest prefix whose following underscore is followed by a full
dimensions-and-extension match. -/
def sourceMatchAux : List Char → Option (List Char × (Nat × Nat × String))
  | [] => none
  | c :: rest =>
    match sourceMatchAux rest with
    | some (pre, dims) => some (c :: pre, dims)
    | none =>
      if c = '_' then
        match matchDims rest with
        | some dims => some ([], dims)
        | none => none
      else none

/-- Model of the filename regex match of index.ts line 596 (the first
capture group must be nonempty). -/
def sourceMatch (fileName : String) : Option (String × (Nat × Nat × String)) :=
  match sourceMatchAux fileName.data with
  | some (pre, dims) => if pre = [] then none else some (String.mk pre, dims)
  | none => none

/-- Allowed extensions of the fallback regex at line 612 (lowercased). -/
def isImageExt (l : List Char) : Bool :=
  let low := l.map lowerChar
  low = ['p', 'n', 'g'] || low = ['j', 'p', 'g'] || low = ['j', 'p', 'e', 'g'] ||
    low = ['w', 'e', 'b', 'p'] || low = ['g', 'i', 'f']

/-- Greedy worker for the case-insensitive fallback regex of line 612:
longest prefix before a dot whose suffix is an allowed extension. -/
def formatMatchAux : List Char → Option (List Char × List Char)
  | [] => none
  | c :: rest =>
    match formatMatchAux rest with
    | some (pre, ext) => some (c :: pre, ext)
    | none =>
      if c = '.' then
        if isImageExt rest then some ([], rest) else none
      else none

/-- Model of the fallback filename regex match of index.ts line 612. -/
def formatMatch (fileName : String) : Option (String × List Char) :=
  match formatMatchAux fileName.data with
  | some (pre, ext) => if pre = [] then none else some (String.mk pre, ext)
  | none => none

/-- Resolved description, dimensions and format of an edit source
(index.ts lines 598-639, for a caller-provided URL, where no local file
is available and the fallback dimensions are 1024 by 1024). -/
structure SourceInfo where
  baseDescription : String
  sourceWidth : Nat
  sourceHeight : Nat
  sourceFormat : String
deriving DecidableEq

/-- Model of index.ts lines 594-639: parse the filename either with the
dimensions pattern or with the extension fallback (then default
dimensions), else fail with the line-614 error. -/
def resolveSourceDims (fileName sourcePathFromUrl : String) : Except String SourceInfo :=
  match sourceMatch fileName with
  | some (desc, w, h, fmt) => .ok ⟨desc, w, h, fmt⟩
  | none =>
    match formatMatch fileName with
    | none => .error ("Invalid source image path format: " ++ sourcePathFromUrl)
    | some (desc, ext) =>
      let low := String.mk (ext.map lowerChar)
      .ok ⟨desc, 1024, 1024, if low = "jpeg" then "jpg" else low⟩

example : buildImagePath ⟨"p", "Happy Duck!!", 800, 600, .png⟩ = "p/happy-duck_800x600.png" := by
  decide
example :
    resolveSourceDims "happy-duck_800x600.png" "p/happy-duck_800x600.png" =
      .ok ⟨"happy-duck", 800, 600, "png"⟩ := by decide
example :
    resolveSourceDims "photo.JPEG" "p/photo.JPEG" = .ok ⟨"photo", 1024, 1024, "jpg"⟩ := by decide
example : resolveSourceDims "_800x600.png" "p/_800x600.png" =
    .ok ⟨"_800x600", 1024, 1024, "png"⟩ := by decide

/-! ## The polling loop (index.ts lines 159-219, duplicated verbatim at
321-381 for create_image and 665-725 for edit_image) -/

/-- What one status poll (`fetch(pollUrl)` plus `pollRes.json()`)
delivers to the loop body: either the fetch itself rejects, or a
response arrives with an HTTP status, a flag telling whether the body
parses as JSON, the `mediaAsset.data` field when present, and the
response text (used only in error messages). -/
inductive PollData where
  | netErr (msg : String)
  | resp (status : Nat) (jsonOk : Bool) (mediaData : Option String) (text : String)

/-- What the secondary `fetch(dataUrl)` of lines 186-188 delivers: a
rejection, or a response with an HTTP status and body bytes. -/
inductive SecondaryData where
  | netErr (msg : String)
  | resp (status : Nat) (bytes : List Nat)

/-- The `Response.ok` flag of the Fetch API: status in the range 200-299. -/
def resOk (status : Nat) : Bool :=
  decide (200 ≤ status) && decide (status < 300)

/-- Six-bit value of one base64 alphabet character, `none` for
characters outside the alphabet (which Node's lenient decoder skips). -/
def base64Val (c : Char) : Option Nat :=
  if 65 ≤ c.toNat ∧ c.toNat ≤ 90 then some (c.toNat - 65)
  else if 97 ≤ c.toNat ∧ c.toNat ≤ 122 then some (c.toNat - 71)
  else if 48 ≤ c.toNat ∧ c.toNat ≤ 57 then some (c.toNat + 4)
  else if c = '+' then some 62
  else if c = '/' then some 63
  else none

/-- Reassemble bytes from six-bit groups, dropping a trailing group that
does not complete a byte. -/
def base64Groups : List Nat → List Nat
  | a :: b :: c :: d :: rest =>
    (a * 4 + b / 16) :: ((b % 16) * 16 + c / 4) :: ((c % 4) * 64 + d) :: base64Groups rest
  | [a, b] => [a * 4 + b / 16]
  | [a, b, c] => [a * 4 + b / 16, (b % 16) * 16 + c / 4]
  | _ => []

/-- Model of `Buffer.from(base64Data, "base64")` (line 182). -/
def base64Decode (l : List Char) : List Nat :=
  base64Groups (l.filterMap base64Val)

/-- Model of JS `dataUrl.split(",")` (line 181). -/
def splitComma : List Char → List (List Char)
  | [] => [[]]
  | c :: rest =>
    if c = ',' then [] :: splitComma rest
    else
      match splitComma rest with
      | [] => [[c]]
      | seg :: segs => (c :: seg) :: segs

/-- Model of JS `s.startsWith(pre)` (line 179). -/
def listStartsWith : List Char → List Char → Bool
  | _, [] => true
  | [], _ :: _ => false
  | c :: cs, p :: ps => c == p && listStartsWith cs ps

/-- Model of JS `s.endsWith(post)` (line 586). -/
def listEndsWith (s post : List Char) : Bool :=
  listStartsWith s.reverse post.reverse

/-- Everything inside the `try` block of one loop iteration (lines
165-205).  Returns the decoded image bytes when the iteration hits a
`break`, otherwise the possibly updated `status` variable; a thrown
exception becomes `Except.error`. -/
def tryBody (fetchSec : String → SecondaryData) (d : PollData) (status : String) :
    Except String (Option (List Nat) × String) :=
  match d with
  | .netErr m => .error m
  | .resp st jsonOk mediaData text =>
    if resOk st then
      if jsonOk then
        -- lines 193-199, reached when no (truthy) mediaAsset.data is present
        let fallThrough : Except String (Option (List Nat) × String) :=
          if st = 202 then .ok (none, "PENDING")
          else if 400 ≤ st then .error ("API error " ++ toString st)
          else .ok (none, status)
        match mediaData with
        | some dataUrl =>
          if dataUrl = "" then fallThrough
          else if listStartsWith dataUrl.data "data:".data then
            -- lines 180-183: split the data URL and decode its base64 part;
            -- a missing comma makes Buffer.from throw on undefined
            match (splitComma dataUrl.data).get? 1 with
            | some b64 => .ok (some (base64Decode b64), status)
            | none => .error "TypeError"
          else
            -- lines 185-189: secondary fetch, bytes taken as they come
            match fetchSec dataUrl with
            | .netErr m => .error m
            | .resp _ bytes => .ok (some bytes, status)
        | none => fallThrough
      else .error "Unexpected token in JSON"
    else
      if st = 202 then .ok (none, "PENDING")
      else .error ("API error " ++ toString st ++ ": " ++ text)

/-- Outcome of one loop iteration after the `catch` of lines 206-211. -/
inductive StepResult where
  | brk (bytes : List Nat)
  | cont (newStatus : String)
  | thrown (msg : String)

/-- One full iteration of the polling loop: the `try` body, then the
`catch` that rethrows only when the `status` variable holds "FAILED". -/
def stepOnce (fetchSec : String → SecondaryData) (d : PollData) (status : String) : StepResult :=
  match tryBody fetchSec d status with
  | .ok (some b, _) => .brk b
  | .ok (none, st) => .cont st
  | .error m => if status = "FAILED" then .thrown m else .cont status

/-- Terminal shape of the `while` loop. -/
inductive LoopOutcome where
  | gotBytes (bytes : List Nat)
  | raised (msg : String)
  | exhausted
deriving DecidableEq

/-- The `while (attempt < maxAttempts)` loop of lines 164-215: `i` is
the index of the next status response, the fuel is the number of
attempts still permitted, and the returned number counts the poll
fetches actually issued. -/
def pollAux (fetchSec : String → SecondaryData) (rs : Nat → PollData) :
    Nat → Nat → String → LoopOutcome × Nat
  | _, 0, _ => (.exhausted, 0)
  | i, fuel + 1, st =>
    match stepOnce fetchSec (rs i) st with
    | .brk b => (.gotBytes b, 1)
    | .thrown m => (.raised m, 1)
    | .cont st2 =>
      let r := pollAux fetchSec rs (i + 1) fuel st2
      (r.1, r.2 + 1)

/-- Number of status fetches the loop issues against a given response
sequence (`maxAttempts = 60`, initial status "PENDING", lines 159-162). -/
def pollFetchCount (fetchSec : String → SecondaryData) (rs : Nat → PollData) : Nat :=
  (pollAux fetchSec rs 0 60 "PENDING").2

/-- The poll section of generate_image (lines 159-219): run the loop,
then throw the line-218 timeout when no image buffer was produced. -/
def generateImagePoll (url : String) (fetchSec : String → SecondaryData)
    (rs : Nat → PollData) : Except String (List Nat) :=
  match (pollAux fetchSec rs 0 60 "PENDING").1 with
  | .gotBytes b => .ok b
  | .raised m => .error m
  | .exhausted => .error ("Image generation timeout after 180 seconds. URL: " ++ url)

/-- The poll section of create_image (lines 321-381), a verbatim copy of
the generate_image loop including the timeout message of line 380. -/
def createImagePoll (url : String) (fetchSec : String → SecondaryData)
    (rs : Nat → PollData) : Except String (List Nat) :=
  generateImagePoll url fetchSec rs

example :
    generateImagePoll "u" (fun _ => .netErr "x")
      (fun _ => .resp 200 true (some "data:image/png;base64,SGVsbG8=") "") =
      .ok [72, 101, 108, 108, 111] := by decide
example :
    pollFetchCount (fun _ => .netErr "x") (fun _ => .resp 202 true none "") = 60 := by decide

/-! ## edit_image source handling (index.ts lines 579-725) -/

/-- The fields of the WHATWG `URL` object that edit_image reads
(lines 581, 586, 590-591); `new URL` itself is library code, so the
parse result is taken as input, `none` meaning the constructor threw. -/
structure UrlParts where
  hostname : String
  pathname : String
  search : String

/-- Model of `pathname.replace` with the anchored single-slash regex of
line 590: drop one leading slash. -/
def stripLeadingSlash (s : String) : String :=
  match s.data with
  | '/' :: rest => String.mk rest
  | _ => s

/-- Model of edit_image from URL parsing to the end of its polling loop
(lines 579-725), for a caller-provided source URL: host check, source
path extraction, filename resolution, edit-slug construction, edit path
assembly, then the same 60-attempt poll; the second component counts the
poll fetches issued. -/
def editImageRun (parsed : Option UrlParts) (origUrl editInstruction : String)
    (width height : Option Nat) (format : Option String)
    (fetchSec : String → SecondaryData) (rs : Nat → PollData) :
    Except String (List Nat) × Nat :=
  match parsed with
  | none => (.error ("Invalid Inliner image URL: " ++ origUrl), 0)
  | some u =>
    if listEndsWith u.hostname.data "img.inliner.ai".data then
      let sourcePathFromUrl := stripLeadingSlash u.pathname
      let sourceQuery := u.search
      let fileName := String.mk (lastSegment sourcePathFromUrl.data)
      match resolveSourceDims fileName sourcePathFromUrl with
      | .error m => (.error m, 0)
      | .ok info =>
        let outputFormat := format.getD info.sourceFormat
        let outputWidth := width.getD info.sourceWidth
        let outputHeight := height.getD info.sourceHeight
        -- lines 645-655: sanitize the instruction, append dimensions when given
        let sanitizedEdit :=
          if width.isSome || height.isSome then
            sanitizeEditInstruction editInstruction ++ "-" ++
              numToString outputWidth ++ "x" ++ numToString outputHeight
          else sanitizeEditInstruction editInstruction
        let editPath := sourcePathFromUrl ++ "/" ++ sanitizedEdit ++ "." ++ outputFormat
        let url := "https://img.inliner.ai/" ++ editPath ++ sourceQuery
        let r := pollAux fetchSec rs 0 60 "PENDING"
        (match r.1 with
         | .gotBytes b => .ok b
         | .raised m => .error m
         | .exhausted => .error ("Image edit timeout after 180 seconds. URL: " ++ url), r.2)
    else (.error ("Invalid Inliner image URL: " ++ origUrl), 0)

/-! ## apiFetch and the read-only listing tools (lines 23-38, 765-1003) -/

/-- What one `fetch` of `apiFetch` delivers: a rejection, or a response
with status, body text, and the body's JSON rendering when it parses. -/
inductive ApiOutcome where
  | netErr (msg : String)
  | resp (status : Nat) (body : String) (json : Option String)

/-- Model of `apiFetch` (lines 23-38): reject on transport error, throw
the line-35 error on a non-2xx status, otherwise return the parsed JSON
(a rejection of `res.json()` also propagates). -/
def apiFetch (o : ApiOutcome) : Except String String :=
  match o with
  | .netErr m => .error m
  | .resp st body json =>
    if resOk st then
      match json with
      | some j => .ok j
      | none => .error "Unexpected token in JSON"
    else .error ("API error " ++ toString st ++ ": " ++ body)

/-- Payload a tool handler hands back to the framework: the text block
and the `isError` flag. -/
structure ToolContent where
  text : String
  isError : Bool
deriving DecidableEq

/-- Shared shape of the five read-only handlers: return the JSON text on
success, catch any error and return it as a flagged payload. -/
def listingToolRun (errPrefix : String) (o : ApiOutcome) : Except String ToolContent :=
  match apiFetch o with
  | .ok data => .ok ⟨data, false⟩
  | .error m => .ok ⟨errPrefix ++ m, true⟩

/-- Tool get_projects (lines 765-792). -/
def getProjects (o : ApiOutcome) : Except String ToolContent :=
  listingToolRun "Error fetching projects: " o

/-- Tool get_project_details (lines 872-901). -/
def getProjectDetails (o : ApiOutcome) : Except String ToolContent :=
  listingToolRun "Error fetching project: " o

/-- Tool get_usage (lines 903-930). -/
def getUsage (o : ApiOutcome) : Except String ToolContent :=
  listingToolRun "Error fetching usage: " o

/-- Tool get_current_plan (lines 932-959). -/
def getCurrentPlan (o : ApiOutcome) : Except String ToolContent :=
  listingToolRun "Error fetching plan: " o

/-- Tool list_images (lines 961-1003). -/
def listImages (o : ApiOutcome) : Except String ToolContent :=
  listingToolRun "Error fetching images: " o

/-- Truth of `Except.ok`. -/
def exceptIsOk {ε α : Type} : Except ε α → Bool
  | .ok _ => true
  | .error _ => false

/-! ## Lemmas about the sanitization pipeline -/

theorem hyphen_allowed : isAllowed '-' = true := by decide

theorem lowerChar_allowed {c : Char} (h : isAllowed c = true) : lowerChar c = c := by
  unfold lowerChar
  rw [if_neg]
  simp only [isAllowed, Bool.or_eq_true, Bool.and_eq_true, decide_eq_true_eq,
    beq_iff_eq] at h
  omega

theorem replaceChar_allowed {c : Char} (h : isAllowed c = true) : replaceChar c = c := by
  unfold replaceChar
  rw [if_pos h]

theorem isAllowed_replaceChar (c : Char) : isAllowed (replaceChar c) = true := by
  unfold replaceChar
  by_cases h : isAllowed c = true
  · rw [if_pos h]; exact h
  · rw [if_neg h]; decide

theorem map_id_of_forall {f : Char → Char} :
    ∀ {l : List Char}, (∀ c ∈ l, f c = c) → l.map f = l
  | [], _ => rfl
  | c :: rest, h => by
    simp only [List.map_cons]
    rw [h c (by simp), map_id_of_forall (fun x hx => h x (by simp [hx]))]

theorem noDouble_cons_iff (a : Char) (l : List Char) :
    noDouble (a :: l) = true ↔ noDouble l = true ∧ (a ≠ '-' ∨ noLead l = true) := by
  cases l with
  | nil => simp [noDouble, noLead]
  | cons b t =>
    by_cases ha : a = '-' <;> by_cases hb : b = '-' <;>
      simp [noDouble, noLead, ha, hb]

theorem noDouble_tail {a : Char} {l : List Char} (h : noDouble (a :: l) = true) :
    noDouble l = true :=
  ((noDouble_cons_iff a l).mp h).1

theorem collapseAux_mem :
    ∀ (l : List Char) (b : Bool) (c : Char), c ∈ collapseAux l b → c ∈ l ∨ c = '-'
  | [], b, c, hc => by simp [collapseAux] at hc
  | a :: rest, b, c, hc => by
    unfold collapseAux at hc
    by_cases ha : a = '-'
    · rw [if_pos ha] at hc
      cases b with
      | true =>
        simp only [if_pos rfl] at hc
        rcases collapseAux_mem rest true c hc with h | h
        · exact Or.inl (by simp [h])
        · exact Or.inr h
      | false =>
        rw [if_neg Bool.false_ne_true] at hc
        rcases List.mem_cons.mp hc with h | h
        · exact Or.inr h
        · rcases collapseAux_mem rest true c h with h2 | h2
          · exact Or.inl (by simp [h2])
          · exact Or.inr h2
    · rw [if_neg ha] at hc
      rcases List.mem_cons.mp hc with h | h
      · exact Or.inl (by simp [h])
      · rcases collapseAux_mem rest false c h with h2 | h2
        · exact Or.inl (by simp [h2])
        · exact Or.inr h2

theorem collapseAux_spec :
    ∀ l : List Char, noDouble (collapseAux l false) = true ∧
      noDouble (collapseAux l true) = true ∧ noLead (collapseAux l true) = true
  | [] => by refine ⟨?_, ?_, ?_⟩ <;> simp [collapseAux, noDouble, noLead]
  | a :: rest => by
    obtain ⟨ihf, iht, ihl⟩ := collapseAux_spec rest
    by_cases ha : a = '-'
    · refine ⟨?_, ?_, ?_⟩
      · show noDouble (collapseAux (a :: rest) false) = true
        unfold collapseAux
        rw [if_pos ha]
        rw [if_neg Bool.false_ne_true]
        exact (noDouble_cons_iff '-' _).mpr ⟨iht, Or.inr ihl⟩
      · show noDouble (collapseAux (a :: rest) true) = true
        unfold collapseAux
        rw [if_pos ha]
        simpa using iht
      · show noLead (collapseAux (a :: rest) true) = true
        unfold collapseAux
        rw [if_pos ha]
        simpa using ihl
    · refine ⟨?_, ?_, ?_⟩
      · show noDouble (collapseAux (a :: rest) false) = true
        unfold collapseAux
        rw [if_neg ha]
        exact (noDouble_cons_iff a _).mpr ⟨ihf, Or.inl ha⟩
      · show noDouble (collapseAux (a :: rest) true) = true
        unfold collapseAux
        rw [if_neg ha]
        exact (noDouble_cons_iff a _).mpr ⟨ihf, Or.inl ha⟩
      · show noLead (collapseAux (a :: rest) true) = true
        unfold collapseAux
        rw [if_neg ha]
        simp [noLead, ha]

theorem collapseAux_id :
    ∀ l : List Char, noDouble l = true →
      collapseAux l false = l ∧ (noLead l = true → collapseAux l true = l)
  | [], _ => by simp [collapseAux]
  | a :: rest, h => by
    obtain ⟨hrest, hside⟩ := (noDouble_cons_iff a rest).mp h
    by_cases ha : a = '-'
    · have hlead : noLead rest = true := by
        rcases hside with h1 | h1
        · exact absurd ha h1
        · exact h1
      have := (collapseAux_id rest hrest).2 hlead
      constructor
      · unfold collapseAux
        rw [if_pos ha]
        rw [if_neg Bool.false_ne_true]
        rw [this, ha]
      · intro hl
        simp [noLead, ha] at hl
    · have := (collapseAux_id rest hrest).1
      constructor
      · unfold collapseAux
        rw [if_neg ha, this]
      · intro _
        unfold collapseAux
        rw [if_neg ha, this]

theorem dropLeadHyphen_cons (a : Char) (rest : List Char) :
    dropLeadHyphen (a :: rest) = if a = '-' then rest else a :: rest := rfl

theorem dropLeadHyphen_mem {l : List Char} {c : Char} (h : c ∈ dropLeadHyphen l) : c ∈ l := by
  cases l with
  | nil => simp [dropLeadHyphen] at h
  | cons a rest =>
    rw [dropLeadHyphen_cons] at h
    by_cases ha : a = '-'
    · rw [if_pos ha] at h
      exact List.mem_cons_of_mem a h
    · rwa [if_neg ha] at h

theorem dropLeadHyphen_noDouble {l : List Char} (h : noDouble l = true) :
    noDouble (dropLeadHyphen l) = true := by
  cases l with
  | nil => simpa [dropLeadHyphen]
  | cons a rest =>
    rw [dropLeadHyphen_cons]
    by_cases ha : a = '-'
    · rw [if_pos ha]
      exact noDouble_tail h
    · rwa [if_neg ha]

theorem dropLeadHyphen_noLead {l : List Char} (h : noDouble l = true) :
    noLead (dropLeadHyphen l) = true := by
  cases l with
  | nil => simp [dropLeadHyphen, noLead]
  | cons a rest =>
    rw [dropLeadHyphen_cons]
    by_cases ha : a = '-'
    · rw [if_pos ha]
      obtain ⟨-, hside⟩ := (noDouble_cons_iff a rest).mp h
      rcases hside with h1 | h1
      · exact absurd ha h1
      · exact h1
    · rw [if_neg ha]
      simp [noLead, ha]

theorem dropLeadHyphen_id {l : List Char} (h : noLead l = true) : dropLeadHyphen l = l := by
  cases l with
  | nil => simp [dropLeadHyphen]
  | cons a rest =>
    rw [dropLeadHyphen_cons]
    simp only [noLead, bne_iff_ne, ne_eq] at h
    rw [if_neg h]

theorem dropTrailHyphen_mem :
    ∀ {l : List Char} {c : Char}, c ∈ dropTrailHyphen l → c ∈ l
  | [], c, h => by simp [dropTrailHyphen] at h
  | [a], c, h => by
    unfold dropTrailHyphen at h
    by_cases ha : a = '-'
    · rw [if_pos ha] at h
      simp at h
    · rwa [if_neg ha] at h
  | a :: b :: t, c, h => by
    rw [show dropTrailHyphen (a :: b :: t) = a :: dropTrailHyphen (b :: t) from rfl] at h
    rcases List.mem_cons.mp h with h1 | h1
    · simp [h1]
    · exact List.mem_cons_of_mem a (dropTrailHyphen_mem h1)

theorem dropTrailHyphen_cons_cons (a b : Char) (t : List Char) :
    dropTrailHyphen (a :: b :: t) = a :: dropTrailHyphen (b :: t) := rfl

theorem dropTrailHyphen_noDouble :
    ∀ {l : List Char}, noDouble l = true → noDouble (dropTrailHyphen l) = true
  | [], _ => by simp [dropTrailHyphen, noDouble]
  | [a], _ => by
    unfold dropTrailHyphen
    by_cases ha : a = '-'
    · rw [if_pos ha]; rfl
    · rw [if_neg ha]; rfl
  | a :: b :: t, h => by
    rw [dropTrailHyphen_cons_cons]
    obtain ⟨ht, hside⟩ := (noDouble_cons_iff a (b :: t)).mp h
    refine (noDouble_cons_iff a _).mpr ⟨dropTrailHyphen_noDouble ht, ?_⟩
    rcases hside with h1 | h1
    · exact Or.inl h1
    · refine Or.inr ?_
      simp only [noLead, bne_iff_ne, ne_eq] at h1
      cases t with
      | nil =>
        unfold dropTrailHyphen
        by_cases hb : b = '-'
        · exact absurd hb h1
        · rw [if_neg hb]; simp [noLead, hb]
      | cons x y =>
        rw [dropTrailHyphen_cons_cons]
        simp [noLead, h1]

theorem dropTrailHyphen_noLead {l : List Char} (h : noLead l = true) :
    noLead (dropTrailHyphen l) = true := by
  cases l with
  | nil => simpa [dropTrailHyphen]
  | cons a rest =>
    simp only [noLead, bne_iff_ne, ne_eq] at h
    cases rest with
    | nil =>
      unfold dropTrailHyphen
      rw [if_neg h]
      simp [noLead, h]
    | cons b t =>
      rw [dropTrailHyphen_cons_cons]
      simp [noLead, h]

theorem dropTrailHyphen_singleton (c : Char) :
    dropTrailHyphen [c] = if c = '-' then [] else [c] := rfl

theorem dropTrailHyphen_noTrail :
    ∀ {l : List Char}, noDouble l = true → noTrail (dropTrailHyphen l) = true
  | [], _ => by simp [dropTrailHyphen, noTrail]
  | [a], _ => by
    rw [dropTrailHyphen_singleton]
    by_cases ha : a = '-'
    · rw [if_pos ha]; rfl
    · rw [if_neg ha]; simp [noTrail, ha]
  | a :: b :: t, h => by
    rw [dropTrailHyphen_cons_cons]
    have ht := noDouble_tail h
    have htail : noTrail (dropTrailHyphen (b :: t)) = true := dropTrailHyphen_noTrail ht
    cases hdt : dropTrailHyphen (b :: t) with
    | nil =>
      -- the stripped tail vanished, so the tail was a lone hyphen and
      -- noDouble forces a to be something other than a hyphen
      have hbt : b = '-' ∧ t = [] := by
        cases t with
        | nil =>
          by_cases hb : b = '-'
          · exact ⟨hb, rfl⟩
          · rw [dropTrailHyphen_singleton, if_neg hb] at hdt
            simp at hdt
        | cons x y =>
          rw [dropTrailHyphen_cons_cons] at hdt
          simp at hdt
      have hside := ((noDouble_cons_iff a (b :: t)).mp h).2
      have ha : a ≠ '-' := by
        rcases hside with h1 | h1
        · exact h1
        · rw [hbt.1] at h1
          simp [noLead] at h1
      simp [noTrail, ha]
    | cons x y =>
      rw [hdt] at htail
      exact htail

theorem dropTrailHyphen_id :
    ∀ {l : List Char}, noTrail l = true → dropTrailHyphen l = l
  | [], _ => rfl
  | [a], h => by
    rw [dropTrailHyphen_singleton]
    simp only [noTrail, bne_iff_ne, ne_eq] at h
    rw [if_neg h]
  | a :: b :: t, h => by
    rw [dropTrailHyphen_cons_cons, dropTrailHyphen_id (l := b :: t) h]

theorem stripEdges_mem {l : List Char} {c : Char} (h : c ∈ stripEdges l) : c ∈ l :=
  dropLeadHyphen_mem (dropTrailHyphen_mem h)

theorem stripEdges_noDouble {l : List Char} (h : noDouble l = true) :
    noDouble (stripEdges l) = true :=
  dropTrailHyphen_noDouble (dropLeadHyphen_noDouble h)

theorem stripEdges_noLead {l : List Char} (h : noDouble l = true) :
    noLead (stripEdges l) = true :=
  dropTrailHyphen_noLead (dropLeadHyphen_noLead h)

theorem stripEdges_noTrail {l : List Char} (h : noDouble l = true) :
    noTrail (stripEdges l) = true :=
  dropTrailHyphen_noTrail (dropLeadHyphen_noDouble h)

theorem stripEdges_id {l : List Char} (h1 : noLead l = true) (h2 : noTrail l = true) :
    stripEdges l = l := by
  unfold stripEdges
  rw [dropLeadHyphen_id h1, dropTrailHyphen_id h2]

theorem noDouble_take : ∀ (n : Nat) {l : List Char}, noDouble l = true →
    noDouble (l.take n) = true
  | 0, l, _ => by simp [noDouble]
  | n + 1, [], _ => by simp [noDouble]
  | n + 1, a :: rest, h => by
    rw [List.take_succ_cons]
    obtain ⟨hrest, hside⟩ := (noDouble_cons_iff a rest).mp h
    refine (noDouble_cons_iff a _).mpr ⟨noDouble_take n hrest, ?_⟩
    rcases hside with h1 | h1
    · exact Or.inl h1
    · refine Or.inr ?_
      cases rest with
      | nil => simp [noLead]
      | cons b t =>
        cases n with
        | zero => simp [noLead]
        | succ m =>
          rw [List.take_succ_cons]
          simpa [noLead] using h1

theorem noLead_take (n : Nat) {l : List Char} (h : noLead l = true) :
    noLead (l.take n) = true := by
  cases l with
  | nil => simp [noLead]
  | cons a rest =>
    cases n with
    | zero => simp [noLead]
    | succ m =>
      rw [List.take_succ_cons]
      simpa [noLead] using h

/-- Every character of the shared sanitization core is in `[a-z0-9-]`. -/
theorem sanitizeCore_allowed (s : String) :
    ∀ c ∈ sanitizeCore s, isAllowed c = true := by
  intro c hc
  rcases collapseAux_mem _ false c hc with h | h
  · rcases List.mem_map.mp h with ⟨x, -, hx⟩
    rw [← hx]
    exact isAllowed_replaceChar x
  · rw [h]; exact hyphen_allowed

/-- The shared sanitization core has no adjacent hyphens. -/
theorem sanitizeCore_noDouble (s : String) : noDouble (sanitizeCore s) = true :=
  (collapseAux_spec _).1

/-- A canonical list (all characters allowed) is a fixed point of the
lowercase and replace passes. -/
theorem maps_id_of_allowed {l : List Char} (h : ∀ c ∈ l, isAllowed c = true) :
    (l.map lowerChar).map replaceChar = l := by
  rw [map_id_of_forall (fun c hc => lowerChar_allowed (h c hc))]
  exact map_id_of_forall (fun c hc => replaceChar_allowed (h c hc))

/-- The four per-site slug facts packaged: characters allowed and no
adjacent hyphens at every site; no leading hyphen everywhere except the
generate_image_url edit slug; no trailing hyphen at the stripped,
untruncated sites. -/
theorem sanitizeDescription_facts (s : String) :
    (∀ c ∈ (sanitizeDescription s).data, isAllowed c = true) ∧
      noDouble (sanitizeDescription s).data = true ∧
      noLead (sanitizeDescription s).data = true := by
  refine ⟨?_, ?_, ?_⟩
  · intro c hc
    exact sanitizeCore_allowed s c (stripEdges_mem (List.mem_of_mem_take hc))
  · exact noDouble_take _ (stripEdges_noDouble (sanitizeCore_noDouble s))
  · exact noLead_take _ (stripEdges_noLead (sanitizeCore_noDouble s))

theorem sanitizeEditInstruction_facts (s : String) :
    (∀ c ∈ (sanitizeEditInstruction s).data, isAllowed c = true) ∧
      noDouble (sanitizeEditInstruction s).data = true ∧
      noLead (sanitizeEditInstruction s).data = true ∧
      noTrail (sanitizeEditInstruction s).data = true := by
  refine ⟨?_, ?_, ?_, ?_⟩
  · intro c hc
    exact sanitizeCore_allowed s c (stripEdges_mem hc)
  · exact stripEdges_noDouble (sanitizeCore_noDouble s)
  · exact stripEdges_noLead (sanitizeCore_noDouble s)
  · exact stripEdges_noTrail (sanitizeCore_noDouble s)

theorem sanitizeEditUrl_facts (s : String) :
    (∀ c ∈ (sanitizeEditUrl s).data, isAllowed c = true) ∧
      noDouble (sanitizeEditUrl s).data = true := by
  exact ⟨sanitizeCore_allowed s, sanitizeCore_noDouble s⟩

/-- The sanitization core is the identity on any string that is already
canonical (allowed characters, no hyphen runs). -/
theorem sanitizeCore_id {t : String} (h1 : ∀ c ∈ t.data, isAllowed c = true)
    (h2 : noDouble t.data = true) : sanitizeCore t = t.data := by
  unfold sanitizeCore collapseHyphens
  rw [maps_id_of_allowed h1]
  exact (collapseAux_id _ h2).1

/-- The untruncated, stripped sanitizer (the edit-instruction and
upload-prompt sites of edit_image) is idempotent. -/
theorem sanitizeEditInstruction_idem (s : String) :
    sanitizeEditInstruction (sanitizeEditInstruction s) = sanitizeEditInstruction s := by
  obtain ⟨h1, h2, h3, h4⟩ := sanitizeEditInstruction_facts s
  show String.mk (stripEdges (sanitizeCore (sanitizeEditInstruction s))) =
    sanitizeEditInstruction s
  rw [sanitizeCore_id h1 h2, stripEdges_id h3 h4]

/-- The generate_image_url edit sanitizer (collapse only, no strip) is
idempotent as well. -/
theorem sanitizeEditUrl_idem (s : String) :
    sanitizeEditUrl (sanitizeEditUrl s) = sanitizeEditUrl s := by
  obtain ⟨h1, h2⟩ := sanitizeEditUrl_facts s
  show String.mk (sanitizeCore (sanitizeEditUrl s)) = sanitizeEditUrl s
  rw [sanitizeCore_id h1 h2]

/-- The description sanitizer is idempotent on every input whose slug
does not end in a hyphen (the only way truncation can break the
stripped shape). -/
theorem sanitizeDescription_idem_of_noTrail (s : String)
    (h : noTrail (sanitizeDescription s).data = true) :
    sanitizeDescription (sanitizeDescription s) = sanitizeDescription s := by
  obtain ⟨h1, h2, h3⟩ := sanitizeDescription_facts s
  have hlen : (sanitizeDescription s).data.length ≤ 100 := by
    unfold sanitizeDescription
    simp
  show String.mk ((stripEdges (sanitizeCore (sanitizeDescription s))).take 100) =
    sanitizeDescription s
  rw [sanitizeCore_id h1 h2, stripEdges_id h3 h, List.take_of_length_le hlen]

theorem noDouble_replicate_a (n : Nat) : noDouble (List.replicate n 'a') = true := by
  induction n with
  | zero => rfl
  | succ m ih =>
    rw [List.replicate_succ]
    exact (noDouble_cons_iff _ _).mpr ⟨ih, Or.inl (by decide)⟩

theorem noLead_replicate_a (n : Nat) : noLead (List.replicate n 'a') = true := by
  cases n with
  | zero => rfl
  | succ m =>
    rw [List.replicate_succ]
    rfl

theorem noTrail_replicate_a (n : Nat) : noTrail (List.replicate n 'a') = true := by
  induction n with
  | zero => rfl
  | succ m ih =>
    rw [List.replicate_succ]
    cases m with
    | zero => decide
    | succ k =>
      rw [List.replicate_succ]
      show noTrail (List.replicate (k + 1) 'a') = true
      exact ih

theorem sanitizeEditInstruction_replicate_a (n : Nat) :
    sanitizeEditInstruction (String.mk (List.replicate n 'a')) =
      String.mk (List.replicate n 'a') := by
  have hcore : sanitizeCore (String.mk (List.replicate n 'a')) = List.replicate n 'a' :=
    sanitizeCore_id
      (by intro c hc; rw [List.eq_of_mem_replicate hc]; decide)
      (noDouble_replicate_a n)
  show String.mk (stripEdges (sanitizeCore (String.mk (List.replicate n 'a')))) = _
  rw [hcore, stripEdges_id (noLead_replicate_a n) (noTrail_replicate_a n)]

/-! ## Claim C2: idempotence of canonicalization -/

/-- C2 counterexample: the description canonicalization (which includes
the final `.slice(0, 100)`) is not idempotent.  A 101-character input
whose sanitized form has a hyphen at index 99 truncates to a slug ending
in a hyphen, which a second pass strips. -/
theorem C2_counterexample :
    sanitizeDescription
        (sanitizeDescription (String.mk (List.replicate 99 'a' ++ ['-', 'b']))) ≠
      sanitizeDescription (String.mk (List.replicate 99 'a' ++ ['-', 'b'])) := by
  decide

/-- C2 (amended): canonicalization without the 100-character truncation
(the edit-instruction and upload-prompt sites) is idempotent for every
string, and the truncating description canonicalization is idempotent on
exactly those inputs whose truncated slug does not end with a hyphen. -/
theorem C2_canonicalize_idempotent_amended :
    (∀ s : String,
        sanitizeEditInstruction (sanitizeEditInstruction s) = sanitizeEditInstruction s) ∧
      (∀ s : String, noTrail (sanitizeDescription s).data = true →
        sanitizeDescription (sanitizeDescription s) = sanitizeDescription s) :=
  ⟨sanitizeEditInstruction_idem, sanitizeDescription_idem_of_noTrail⟩

/-- C2 witness: the amended idempotence applied to a concrete
description. -/
theorem C2_canonicalize_idempotent_amended_witness :
    noTrail (sanitizeDescription "Happy Duck!!").data = true ∧
      sanitizeDescription (sanitizeDescription "Happy Duck!!") =
        sanitizeDescription "Happy Duck!!" :=
  ⟨by decide, C2_canonicalize_idempotent_amended.2 "Happy Duck!!" (by decide)⟩

/-! ## Claim C3: charset closure at every sanitization site -/

/-- C3 counterexample: the edit slug of `generate_image_url` (lines
94-97) omits the edge strip, so the slug of "Blue!" ends with a hyphen,
unlike the claim's requirement at every site. -/
theorem C3_counterexample :
    sanitizeEditUrl "Blue!" = "blue-" ∧ noTrail (sanitizeEditUrl "Blue!").data = false := by
  decide

/-- C3 (amended): every sanitization site yields only `[a-z0-9-]`
characters with no adjacent hyphens; the description sites additionally
never start with a hyphen, and the stripped untruncated sites of
edit_image (edit instruction, upload prompt) neither start nor end with
one.  The `generate_image_url` edit slug may start or end with a hyphen
(it skips the strip), and a description slug may end with a hyphen when
truncation cuts directly after one, so the rule is not applied
identically at every site. -/
theorem C3_slug_charset_amended :
    ∀ s : String,
      (∀ c ∈ (sanitizeDescription s).data, isAllowed c = true) ∧
        noDouble (sanitizeDescription s).data = true ∧
        noLead (sanitizeDescription s).data = true ∧
        (∀ c ∈ (sanitizeEditUrl s).data, isAllowed c = true) ∧
        noDouble (sanitizeEditUrl s).data = true ∧
        (∀ c ∈ (sanitizeEditInstruction s).data, isAllowed c = true) ∧
        noDouble (sanitizeEditInstruction s).data = true ∧
        noLead (sanitizeEditInstruction s).data = true ∧
        noTrail (sanitizeEditInstruction s).data = true ∧
        (∀ c ∈ (sanitizeUploadPrompt s).data, isAllowed c = true) ∧
        noDouble (sanitizeUploadPrompt s).data = true ∧
        noLead (sanitizeUploadPrompt s).data = true ∧
        noTrail (sanitizeUploadPrompt s).data = true := by
  intro s
  obtain ⟨d1, d2, d3⟩ := sanitizeDescription_facts s
  obtain ⟨u1, u2⟩ := sanitizeEditUrl_facts s
  obtain ⟨e1, e2, e3, e4⟩ := sanitizeEditInstruction_facts s
  exact ⟨d1, d2, d3, u1, u2, e1, e2, e3, e4, e1, e2, e3, e4⟩

/-! ## Claim C8: truncation applies to description slugs only -/

/-- C8: description slugs are truncated to at most 100 characters, while
the edit-instruction sanitizer preserves arbitrary lengths (an
already-canonical instruction of any length n keeps all n characters). -/
theorem C8_truncation_policy :
    (∀ s : String, (sanitizeDescription s).data.length ≤ 100) ∧
      ∀ n : Nat,
        (sanitizeEditInstruction (String.mk (List.replicate n 'a'))).data.length = n := by
  constructor
  · intro s
    show (List.take 100 (stripEdges (sanitizeCore s))).length ≤ 100
    simp
  · intro n
    rw [sanitizeEditInstruction_replicate_a]
    simp

/-! ## Lemmas about the polling loop -/

/-- Unfolding equation for one allowed attempt. -/
theorem pollAux_succ (fs : String → SecondaryData) (rs : Nat → PollData)
    (i fuel : Nat) (st : String) :
    pollAux fs rs i (fuel + 1) st =
      match stepOnce fs (rs i) st with
      | .brk b => (.gotBytes b, 1)
      | .thrown m => (.raised m, 1)
      | .cont st2 => ((pollAux fs rs (i + 1) fuel st2).1, (pollAux fs rs (i + 1) fuel st2).2 + 1)
    := rfl

/-- From the status "PENDING" an attempt can only break with bytes or
continue with status "PENDING" again: the catch of lines 206-211 compares
the status variable against "FAILED", which is never assigned anywhere in
the loop, so a thrown error is always swallowed. -/
theorem stepOnce_pending (fs : String → SecondaryData) (d : PollData) :
    (∃ b, stepOnce fs d "PENDING" = .brk b) ∨ stepOnce fs d "PENDING" = .cont "PENDING" := by
  unfold stepOnce
  cases htb : tryBody fs d "PENDING" with
  | error m =>
    right
    rfl
  | ok pair =>
    obtain ⟨ob, st⟩ := pair
    cases ob with
    | some b => exact Or.inl ⟨b, rfl⟩
    | none =>
      right
      have hst : st = "PENDING" := by
        cases d with
        | netErr m => simp [tryBody] at htb
        | resp s jsonOk mediaData text =>
          unfold tryBody at htb
          repeat' split at htb
          all_goals simp_all
      rw [hst]

/-- Starting from "PENDING", the loop consumes at most its fuel in
fetches and can only finish with bytes or by exhaustion. -/
theorem pollAux_pending (fs : String → SecondaryData) (rs : Nat → PollData) :
    ∀ (fuel i : Nat), (pollAux fs rs i fuel "PENDING").2 ≤ fuel ∧
      ((∃ b, (pollAux fs rs i fuel "PENDING").1 = .gotBytes b) ∨
        (pollAux fs rs i fuel "PENDING").1 = .exhausted)
  | 0, i => by simp [pollAux]
  | fuel + 1, i => by
    rw [pollAux_succ]
    rcases stepOnce_pending fs (rs i) with ⟨b, hb⟩ | hc
    · rw [hb]
      refine ⟨?_, Or.inl ⟨b, rfl⟩⟩
      show (1 : Nat) ≤ fuel + 1
      omega
    · rw [hc]
      obtain ⟨ih1, ih2⟩ := pollAux_pending fs rs fuel (i + 1)
      refine ⟨?_, ?_⟩
      · show (pollAux fs rs (i + 1) fuel "PENDING").2 + 1 ≤ fuel + 1
        omega
      · exact ih2

/-- A 202 status response leaves the loop pending whatever the current
status variable holds. -/
theorem stepOnce_202 (fs : String → SecondaryData) (st : String) :
    stepOnce fs (.resp 202 true none "") st = .cont "PENDING" := rfl

/-- Skipping a prefix of k "still processing" responses costs exactly k
fetches and continues from attempt index i + k. -/
theorem pollAux_skip_pending (fs : String → SecondaryData) (rs : Nat → PollData) :
    ∀ (k i fuel : Nat), (∀ j, j < k → rs (i + j) = .resp 202 true none "") →
      pollAux fs rs i (k + fuel) "PENDING" =
        ((pollAux fs rs (i + k) fuel "PENDING").1,
          (pollAux fs rs (i + k) fuel "PENDING").2 + k)
  | 0, i, fuel, _ => by simp
  | k + 1, i, fuel, h => by
    have h0 : rs i = .resp 202 true none "" := by
      have := h 0 (Nat.succ_pos k)
      simpa using this
    have heq : (k + 1) + fuel = (k + fuel) + 1 := by omega
    rw [heq, pollAux_succ, h0, stepOnce_202]
    have ih := pollAux_skip_pending fs rs k (i + 1) fuel
      (fun j hj => by
        have := h (j + 1) (by omega)
        rwa [show i + 1 + j = i + (j + 1) by omega])
    show ((pollAux fs rs (i + 1) (k + fuel) "PENDING").1,
        (pollAux fs rs (i + 1) (k + fuel) "PENDING").2 + 1) = _
    rw [ih, show i + 1 + k = i + (k + 1) by omega, Nat.add_assoc]

/-! ## Claim C5: bounded termination of the poller -/

/-- C5: whatever the status responses and the secondary fetches deliver,
the generate_image poll issues at most 60 fetches and finishes by
returning bytes or raising an error (in fact a timeout). -/
theorem C5_poll_bounded_termination (url : String) (fs : String → SecondaryData)
    (rs : Nat → PollData) :
    pollFetchCount fs rs ≤ 60 ∧
      ((∃ b, generateImagePoll url fs rs = .ok b) ∨
        ∃ m, generateImagePoll url fs rs = .error m) := by
  obtain ⟨h1, h2⟩ := pollAux_pending fs rs 60 0
  refine ⟨h1, ?_⟩
  unfold generateImagePoll
  rcases h2 with ⟨b, hb⟩ | he
  · rw [hb]
    exact Or.inl ⟨b, rfl⟩
  · rw [he]
    exact Or.inr ⟨_, rfl⟩

/-! ## Claim C1: terminal poll failures are meant to abort the loop -/

/-- C1 evaluation at the failing input: when every status poll answers
HTTP 400, the loop does not abort after the first failure; the thrown
"API error 400" is swallowed by the catch (the status variable is never
set to "FAILED", so the rethrow guard of line 207 is dead), all 60
attempts are consumed, and the caller sees the timeout error instead of
the API error. -/
theorem C1_failed_poll_swallowed :
    ∀ fs : String → SecondaryData,
      generateImagePoll "https://img.inliner.ai/p/a_800x600.png" fs
          (fun _ => PollData.resp 400 false none "ERR") =
        .error
          ("Image generation timeout after 180 seconds. URL: https://img.inliner.ai/p/a_800x600.png") ∧
      pollFetchCount fs (fun _ => PollData.resp 400 false none "ERR") = 60 :=
  fun _ => ⟨rfl, rfl⟩

/-- A 2xx response carrying a nonempty base64 data URL breaks the loop
with the decoded bytes. -/
theorem stepOnce_ready_dataUrl (fs : String → SecondaryData) (st d : String) (b64 : List Char)
    (h2 : d ≠ "") (h3 : listStartsWith d.data "data:".data = true)
    (h5 : (splitComma d.data).get? 1 = some b64) :
    stepOnce fs (.resp 200 true (some d) "") st = .brk (base64Decode b64) := by
  have htb : tryBody fs (.resp 200 true (some d) "") st = .ok (some (base64Decode b64), st) := by
    rw [List.get?_eq_getElem?] at h5
    simp only [tryBody]
    simp [h2, h3, h5, resOk]
  unfold stepOnce
  rw [htb]

/-- A 2xx response carrying a nonempty plain URL breaks the loop with
whatever bytes the secondary fetch returns, its status ignored. -/
theorem stepOnce_ready_plainUrl (fs : String → SecondaryData) (st u : String)
    (s : Nat) (bytes : List Nat)
    (h2 : u ≠ "") (h3 : listStartsWith u.data "data:".data = false)
    (h4 : fs u = .resp s bytes) :
    stepOnce fs (.resp 200 true (some u) "") st = .brk bytes := by
  have htb : tryBody fs (.resp 200 true (some u) "") st = .ok (some bytes, st) := by
    simp only [tryBody]
    simp [h2, h3, h4, resOk]
  unfold stepOnce
  rw [htb]

/-! ## Claim C6: 29 pending responses then a base64 payload -/

/-- C6: if the status endpoint answers 202 on the first 29 attempts and
attempt 30 delivers a 200 whose mediaAsset.data is a base64 data URL,
the poll succeeds with the decoded bytes after exactly 30 fetches. -/
theorem C6_ready_on_attempt_30 (url : String) (fs : String → SecondaryData)
    (rs : Nat → PollData) (d : String) (b64 : List Char)
    (h1 : ∀ i, i < 29 → rs i = .resp 202 true none "")
    (h2 : rs 29 = .resp 200 true (some d) "")
    (h3 : d ≠ "")
    (h4 : listStartsWith d.data "data:".data = true)
    (h5 : (splitComma d.data).get? 1 = some b64) :
    generateImagePoll url fs rs = .ok (base64Decode b64) ∧ pollFetchCount fs rs = 30 := by
  have hstep : stepOnce fs (rs 29) "PENDING" = .brk (base64Decode b64) := by
    rw [h2]
    exact stepOnce_ready_dataUrl fs _ d b64 h3 h4 h5
  have hat : pollAux fs rs 29 31 "PENDING" = (.gotBytes (base64Decode b64), 1) := by
    show pollAux fs rs 29 (30 + 1) "PENDING" = _
    rw [pollAux_succ, hstep]
  have key : pollAux fs rs 0 60 "PENDING" = (.gotBytes (base64Decode b64), 30) := by
    have hmain := pollAux_skip_pending fs rs 29 0 31 (fun j hj => by
      have := h1 j hj
      simpa using this)
    rw [show (60 : Nat) = 29 + 31 by norm_num, hmain]
    simp only [Nat.zero_add]
    rw [hat]
  refine ⟨?_, ?_⟩
  · unfold generateImagePoll
    rw [key]
  · unfold pollFetchCount
    rw [key]

/-- C6 witness: the scenario instantiated with a concrete data URL whose
payload decodes to the bytes of "Hello". -/
theorem C6_ready_on_attempt_30_witness :
    generateImagePoll "u" (fun _ => SecondaryData.netErr "x")
        (fun i => if i < 29 then PollData.resp 202 true none ""
          else PollData.resp 200 true (some "data:image/png;base64,SGVsbG8=") "") =
      .ok (base64Decode "SGVsbG8=".data) ∧
      pollFetchCount (fun _ => SecondaryData.netErr "x")
        (fun i => if i < 29 then PollData.resp 202 true none ""
          else PollData.resp 200 true (some "data:image/png;base64,SGVsbG8=") "") = 30 :=
  C6_ready_on_attempt_30 "u" _ _ "data:image/png;base64,SGVsbG8=" "SGVsbG8=".data
    (fun i hi => by simp [hi])
    (by norm_num)
    (by decide)
    (by decide)
    (by decide)

/-! ## Claim C10: the secondary fetch never checks its response status -/

/-- C10: when a successful status response carries a plain (non-data:)
URL, the loop returns whatever bytes the secondary fetch produces, for
any secondary HTTP status whatsoever, after a single poll fetch. -/
theorem C10_secondary_fetch_unchecked (url u : String) (fs : String → SecondaryData)
    (rs : Nat → PollData) (s : Nat) (bytes : List Nat)
    (h1 : rs 0 = .resp 200 true (some u) "")
    (h2 : u ≠ "")
    (h3 : listStartsWith u.data "data:".data = false)
    (h4 : fs u = .resp s bytes) :
    generateImagePoll url fs rs = .ok bytes ∧ pollFetchCount fs rs = 1 := by
  have hstep : stepOnce fs (rs 0) "PENDING" = .brk bytes := by
    rw [h1]
    exact stepOnce_ready_plainUrl fs _ u s bytes h2 h3 h4
  have key : pollAux fs rs 0 60 "PENDING" = (.gotBytes bytes, 1) := by
    show pollAux fs rs 0 (59 + 1) "PENDING" = _
    rw [pollAux_succ, hstep]
  refine ⟨?_, ?_⟩
  · unfold generateImagePoll
    rw [key]
  · unfold pollFetchCount
    rw [key]

/-- C10 witness: a secondary fetch answering HTTP 500 with body bytes
[1, 2, 3] still yields those bytes as the Ready payload. -/
theorem C10_secondary_fetch_unchecked_witness :
    generateImagePoll "u" (fun _ => SecondaryData.resp 500 [1, 2, 3])
        (fun _ => PollData.resp 200 true (some "https://img.inliner.ai/x.png") "") =
      .ok [1, 2, 3] ∧
      pollFetchCount (fun _ => SecondaryData.resp 500 [1, 2, 3])
        (fun _ => PollData.resp 200 true (some "https://img.inliner.ai/x.png") "") = 1 :=
  C10_secondary_fetch_unchecked "u" "https://img.inliner.ai/x.png" _ _ 500 [1, 2, 3]
    rfl (by decide) (by decide) rfl

/-! ## Claim C9: throw versus catch-and-return at tool boundaries -/

theorem listingToolRun_catches (errPrefix : String) (o : ApiOutcome) :
    ∃ c : ToolContent, listingToolRun errPrefix o = .ok c ∧
      c.isError = !exceptIsOk (apiFetch o) := by
  unfold listingToolRun
  cases h : apiFetch o with
  | ok d => exact ⟨⟨d, false⟩, rfl, by simp [exceptIsOk]⟩
  | error m => exact ⟨⟨errPrefix ++ m, true⟩, rfl, by simp [exceptIsOk]⟩

/-- C9: the five read-only listing tools never propagate an exception
(they always return a payload, flagged as an error exactly when the
underlying apiFetch failed), while the materializing flows surface
unrecoverable conditions as thrown errors: generate_image and
create_image throw their timeout when no attempt produces an image, and
edit_image throws its invalid-URL error (before issuing any poll fetch)
on a rejected source host. -/
theorem C9_error_propagation_policy :
    (∀ o : ApiOutcome, ∃ c : ToolContent, getProjects o = .ok c ∧
        c.isError = !exceptIsOk (apiFetch o)) ∧
      (∀ o : ApiOutcome, ∃ c : ToolContent, getProjectDetails o = .ok c ∧
        c.isError = !exceptIsOk (apiFetch o)) ∧
      (∀ o : ApiOutcome, ∃ c : ToolContent, getUsage o = .ok c ∧
        c.isError = !exceptIsOk (apiFetch o)) ∧
      (∀ o : ApiOutcome, ∃ c : ToolContent, getCurrentPlan o = .ok c ∧
        c.isError = !exceptIsOk (apiFetch o)) ∧
      (∀ o : ApiOutcome, ∃ c : ToolContent, listImages o = .ok c ∧
        c.isError = !exceptIsOk (apiFetch o)) ∧
      (∀ (url : String) (fs : String → SecondaryData),
        generateImagePoll url fs (fun _ => .resp 202 true none "") =
          .error ("Image generation timeout after 180 seconds. URL: " ++ url)) ∧
      (∀ (url : String) (fs : String → SecondaryData),
        createImagePoll url fs (fun _ => .resp 202 true none "") =
          .error ("Image generation timeout after 180 seconds. URL: " ++ url)) ∧
      (∀ (edit : String) (fs : String → SecondaryData) (rs : Nat → PollData),
        editImageRun (some ⟨"example.com", "/p/a_800x600.png", ""⟩)
            "https://example.com/p/a_800x600.png" edit none none none fs rs =
          (.error "Invalid Inliner image URL: https://example.com/p/a_800x600.png", 0)) := by
  refine ⟨fun o => listingToolRun_catches _ o, fun o => listingToolRun_catches _ o,
    fun o => listingToolRun_catches _ o, fun o => listingToolRun_catches _ o,
    fun o => listingToolRun_catches _ o, fun url fs => rfl, fun url fs => rfl,
    fun edit fs rs => ?_⟩
  simp only [editImageRun]
  rw [if_neg (by decide)]
  rfl

/-! ## Claim C4: the edit_image source-host check -/

/-- C4 counterexample: the host check is a string-suffix test, so the
third-party host "evilimg.inliner.ai" (which is not the image-serving
host img.inliner.ai) is accepted and edit_image proceeds to poll all 60
attempts instead of failing up front. -/
theorem C4_counterexample :
    editImageRun (some ⟨"evilimg.inliner.ai", "/p/a_800x600.png", ""⟩)
        "https://evilimg.inliner.ai/p/a_800x600.png" "make-it-blue" none none none
        (fun _ => .netErr "x") (fun _ => .resp 202 true none "") =
      (.error
        "Image edit timeout after 180 seconds. URL: https://img.inliner.ai/p/a_800x600.png/make-it-blue.png",
        60) := by
  decide

/-- C4 (amended): edit_image rejects a parsed source URL, with the
invalid-URL error and zero poll fetches, exactly when its hostname does
not end with the string "img.inliner.ai"; because this is a suffix test
rather than an exact host comparison, hostnames such as
"evilimg.inliner.ai" pass it. -/
theorem C4_host_check_amended (u : UrlParts) (origUrl edit : String)
    (w h : Option Nat) (fm : Option String) (fs : String → SecondaryData)
    (rs : Nat → PollData)
    (hhost : listEndsWith u.hostname.data "img.inliner.ai".data = false) :
    editImageRun (some u) origUrl edit w h fm fs rs =
      (.error ("Invalid Inliner image URL: " ++ origUrl), 0) := by
  simp only [editImageRun]
  rw [if_neg (by simp [hhost])]

/-- C4 witness: the amended rejection applied to a third-party host that
does not carry the suffix. -/
theorem C4_host_check_amended_witness :
    listEndsWith "example.org".data "img.inliner.ai".data = false ∧
      editImageRun (some ⟨"example.org", "/x.png", ""⟩) "https://example.org/x.png" "e"
          none none none (fun _ => .netErr "n") (fun _ => .netErr "n") =
        (.error "Invalid Inliner image URL: https://example.org/x.png", 0) :=
  ⟨by decide,
    C4_host_check_amended ⟨"example.org", "/x.png", ""⟩ "https://example.org/x.png" "e"
      none none none (fun _ => .netErr "n") (fun _ => .netErr "n") (by decide)⟩

/-! ## Lemmas about decimal digits and the filename round-trip -/

theorem natDigitsRevFuel_digits :
    ∀ (fuel n : Nat) (c : Char), c ∈ natDigitsRevFuel fuel n → isDigitChar c = true
  | 0, n, c, hc => by simp [natDigitsRevFuel] at hc
  | fuel + 1, n, c, hc => by
    unfold natDigitsRevFuel at hc
    by_cases hn : n = 0
    · rw [if_pos hn] at hc
      simp at hc
    · rw [if_neg hn] at hc
      rcases List.mem_cons.mp hc with hc | hc
      · have hlt : n % 10 < 10 := Nat.mod_lt n (by norm_num)
        rw [hc]
        revert hlt
        have : ∀ k, k < 10 → isDigitChar (Nat.digitChar k) = true := by decide
        exact this (n % 10)
      · exact natDigitsRevFuel_digits fuel (n / 10) c hc

theorem natToDecimal_digits (n : Nat) : ∀ c ∈ natToDecimal n, isDigitChar c = true := by
  intro c hc
  unfold natToDecimal at hc
  by_cases hn : n = 0
  · rw [if_pos hn] at hc
    simp at hc
    rw [hc]
    decide
  · rw [if_neg hn] at hc
    exact natDigitsRevFuel_digits n n c (List.mem_reverse.mp hc)

theorem digitsToNat_append_singleton (l : List Char) (c : Char) :
    digitsToNat (l ++ [c]) = 10 * digitsToNat l + (c.toNat - 48) := by
  unfold digitsToNat
  rw [List.foldl_append]
  simp

theorem digitsToNat_rev :
    ∀ (fuel n : Nat), n ≤ fuel → digitsToNat (natDigitsRevFuel fuel n).reverse = n
  | 0, n, hle => by
    have : n = 0 := by omega
    simp [this, natDigitsRevFuel, digitsToNat]
  | fuel + 1, n, hle => by
    unfold natDigitsRevFuel
    by_cases hn : n = 0
    · rw [if_pos hn, hn]
      simp [digitsToNat]
    · rw [if_neg hn]
      have hdiv : n / 10 < n := Nat.div_lt_self (Nat.pos_of_ne_zero hn) (by norm_num)
      have ih := digitsToNat_rev fuel (n / 10) (by omega)
      have hmod : n % 10 < 10 := Nat.mod_lt n (by norm_num)
      have hchar : ∀ k, k < 10 → (Nat.digitChar k).toNat - 48 = k := by decide
      rw [List.reverse_cons, digitsToNat_append_singleton, ih, hchar (n % 10) hmod]
      omega

theorem digitsToNat_natToDecimal (n : Nat) : digitsToNat (natToDecimal n) = n := by
  unfold natToDecimal
  by_cases hn : n = 0
  · rw [if_pos hn, hn]
    decide
  · rw [if_neg hn]
    exact digitsToNat_rev n n (Nat.le_refl n)

theorem natToDecimal_ne_nil (n : Nat) : natToDecimal n ≠ [] := by
  unfold natToDecimal
  by_cases hn : n = 0
  · rw [if_pos hn]
    simp
  · rw [if_neg hn]
    cases n with
    | zero => exact absurd rfl hn
    | succ m =>
      unfold natDigitsRev natDigitsRevFuel
      rw [if_neg hn]
      simp

theorem takeWhile_dropWhile_append (p : Char → Bool) :
    ∀ (l1 : List Char) (c : Char) (l2 : List Char), (∀ x ∈ l1, p x = true) → p c = false →
      (l1 ++ c :: l2).takeWhile p = l1 ∧ (l1 ++ c :: l2).dropWhile p = c :: l2
  | [], c, l2, _, hc => by simp [List.takeWhile_cons, List.dropWhile_cons, hc]
  | a :: t, c, l2, h, hc => by
    have ha : p a = true := h a (by simp)
    obtain ⟨ih1, ih2⟩ :=
      takeWhile_dropWhile_append p t c l2 (fun x hx => h x (by simp [hx])) hc
    simp [List.takeWhile_cons, List.dropWhile_cons, ha, ih1, ih2]

theorem matchDims_build (w h : Nat) (f : ImgFormat) :
    matchDims (natToDecimal w ++ 'x' :: (natToDecimal h ++ '.' :: f.str.data)) =
      some (w, h, f.str) := by
  obtain ⟨ht1, hd1⟩ := takeWhile_dropWhile_append isDigitChar (natToDecimal w) 'x'
    (natToDecimal h ++ '.' :: f.str.data) (natToDecimal_digits w) (by decide)
  obtain ⟨ht2, hd2⟩ := takeWhile_dropWhile_append isDigitChar (natToDecimal h) '.'
    f.str.data (natToDecimal_digits h) (by decide)
  cases f with
  | png =>
    simp only [ImgFormat.str] at ht1 hd1 ht2 hd2 ⊢
    simp [matchDims, ht1, hd1, ht2, hd2, natToDecimal_ne_nil, digitsToNat_natToDecimal,
      show ("png".data = ['p', 'n', 'g']) from rfl,
      show (String.mk ['p', 'n', 'g'] = "png") from rfl]
  | jpg =>
    simp only [ImgFormat.str] at ht1 hd1 ht2 hd2 ⊢
    simp [matchDims, ht1, hd1, ht2, hd2, natToDecimal_ne_nil, digitsToNat_natToDecimal,
      show ("jpg".data = ['j', 'p', 'g']) from rfl,
      show (String.mk ['j', 'p', 'g'] = "jpg") from rfl]

theorem sourceMatchAux_none :
    ∀ {l : List Char}, '_' ∉ l → sourceMatchAux l = none
  | [], _ => rfl
  | c :: rest, h => by
    have hc : c ≠ '_' := fun hcq => h (by simp [hcq])
    have hrest : sourceMatchAux rest = none :=
      sourceMatchAux_none (fun hm => h (by simp [hm]))
    simp [sourceMatchAux, hrest, hc]

theorem sourceMatchAux_append :
    ∀ (l1 : List Char), '_' ∉ l1 →
      ∀ (l2 : List Char) (dims : Nat × Nat × String), sourceMatchAux l2 = none →
        matchDims l2 = some dims → sourceMatchAux (l1 ++ '_' :: l2) = some (l1, dims)
  | [], _, l2, dims, h2, h3 => by simp [sourceMatchAux, h2, h3]
  | c :: t, h1, l2, dims, h2, h3 => by
    have ht : '_' ∉ t := fun hm => h1 (by simp [hm])
    simp [sourceMatchAux, sourceMatchAux_append t ht l2 dims h2 h3]

theorem lastSegment_append (l1 l2 : List Char) (h : '/' ∉ l2) :
    lastSegment (l1 ++ '/' :: l2) = l2 := by
  unfold lastSegment
  have hrev : (l1 ++ '/' :: l2).reverse = l2.reverse ++ '/' :: l1.reverse := by
    simp
  rw [hrev]
  obtain ⟨ht, -⟩ := takeWhile_dropWhile_append (fun c => c != '/') l2.reverse '/' l1.reverse
    (fun x hx => by
      have hxl : x ∈ l2 := List.mem_reverse.mp hx
      simp [show x ≠ '/' from fun he => h (he ▸ hxl)])
    (by decide)
  rw [ht, List.reverse_reverse]

theorem not_mem_of_allowed {l : List Char} (c0 : Char) (h0 : isAllowed c0 = false)
    (h : ∀ c ∈ l, isAllowed c = true) : c0 ∉ l := by
  intro hm
  rw [h c0 hm] at h0
  exact absurd h0 (by decide)

theorem not_mem_dims_tail (c0 : Char) (hd : isDigitChar c0 = false) (hx : c0 ≠ 'x')
    (hdot : c0 ≠ '.') (w h : Nat) (f : ImgFormat) (hf : c0 ∉ f.str.data) :
    c0 ∉ (natToDecimal w ++ 'x' :: (natToDecimal h ++ '.' :: f.str.data)) := by
  intro hm
  rcases List.mem_append.mp hm with hm | hm
  · rw [natToDecimal_digits w c0 hm] at hd
    exact absurd hd (by decide)
  · rcases List.mem_cons.mp hm with hm | hm
    · exact hx hm
    · rcases List.mem_append.mp hm with hm | hm
      · rw [natToDecimal_digits h c0 hm] at hd
        exact absurd hd (by decide)
      · rcases List.mem_cons.mp hm with hm | hm
        · exact hdot hm
        · exact hf hm

theorem buildImagePath_data (spec : ImageSpec) :
    (buildImagePath spec).data =
      spec.project.data ++ '/' :: ((sanitizeDescription spec.description).data ++
        '_' :: (natToDecimal spec.width ++ 'x' :: (natToDecimal spec.height ++
          '.' :: spec.fmt.str.data))) := by
  unfold buildImagePath numToString
  simp [String.data_append]

/-! ## Claim C7: round-trip of buildImagePath through the filename regex -/

/-- C7 counterexample: a description that sanitizes to the empty slug
(here pure punctuation) produces the filename "_800x600.png", which the
dimensions regex rejects (its first capture group needs at least one
character), so the resolver falls back to the extension pattern and
default dimensions 1024 by 1024 instead of recovering width 800 and
height 600. -/
theorem C7_counterexample :
    sanitizeDescription "!!!" = "" ∧
      buildImagePath ⟨"p", "!!!", 800, 600, .png⟩ = "p/_800x600.png" ∧
      resolveSourceDims
          (String.mk (lastSegment (buildImagePath ⟨"p", "!!!", 800, 600, .png⟩).data))
          (buildImagePath ⟨"p", "!!!", 800, 600, .png⟩) =
        .ok ⟨"_800x600", 1024, 1024, "png"⟩ := by
  decide

/-- C7 (amended): for every spec whose description slug is nonempty (and
in-range dimensions), extracting the filename of the built path and
matching it with the resolver's dimensions pattern recovers the slug,
width, height and format exactly.  An empty slug (empty or
punctuation-only description) breaks the round-trip as shown by the
counterexample. -/
theorem C7_roundtrip_amended (p desc : String) (w h : Nat) (f : ImgFormat)
    (hslug : sanitizeDescription desc ≠ "")
    (_hw1 : 100 ≤ w) (_hw2 : w ≤ 4096) (_hh1 : 100 ≤ h) (_hh2 : h ≤ 4096) :
    resolveSourceDims
        (String.mk (lastSegment (buildImagePath ⟨p, desc, w, h, f⟩).data))
        (buildImagePath ⟨p, desc, w, h, f⟩) =
      .ok ⟨sanitizeDescription desc, w, h, f.str⟩ := by
  have hall := (sanitizeDescription_facts desc).1
  have hne : (sanitizeDescription desc).data ≠ [] := by
    intro hn
    exact hslug (String.ext hn)
  have hfmt_slash : '/' ∉ f.str.data := by cases f <;> decide
  have hfmt_us : '_' ∉ f.str.data := by cases f <;> decide
  have hrest_us : '_' ∉ (natToDecimal w ++ 'x' :: (natToDecimal h ++ '.' :: f.str.data)) :=
    not_mem_dims_tail '_' (by decide) (by decide) (by decide) w h f hfmt_us
  have hrest_slash : '/' ∉ (natToDecimal w ++ 'x' :: (natToDecimal h ++ '.' :: f.str.data)) :=
    not_mem_dims_tail '/' (by decide) (by decide) (by decide) w h f hfmt_slash
  have hfile_slash :
      '/' ∉ ((sanitizeDescription desc).data ++
        '_' :: (natToDecimal w ++ 'x' :: (natToDecimal h ++ '.' :: f.str.data))) := by
    intro hm
    rcases List.mem_append.mp hm with hm | hm
    · exact not_mem_of_allowed '/' (by decide) hall hm
    · rcases List.mem_cons.mp hm with hm | hm
      · exact absurd hm (by decide)
      · exact hrest_slash hm
  have hseg :
      lastSegment (buildImagePath ⟨p, desc, w, h, f⟩).data =
        (sanitizeDescription desc).data ++
          '_' :: (natToDecimal w ++ 'x' :: (natToDecimal h ++ '.' :: f.str.data)) := by
    rw [buildImagePath_data]
    exact lastSegment_append p.data _ hfile_slash
  have haux :
      sourceMatchAux ((sanitizeDescription desc).data ++
          '_' :: (natToDecimal w ++ 'x' :: (natToDecimal h ++ '.' :: f.str.data))) =
        some ((sanitizeDescription desc).data, (w, h, f.str)) :=
    sourceMatchAux_append _ (not_mem_of_allowed '_' (by decide) hall) _ _
      (sourceMatchAux_none hrest_us) (matchDims_build w h f)
  have hmatch :
      sourceMatch (String.mk (lastSegment (buildImagePath ⟨p, desc, w, h, f⟩).data)) =
        some (sanitizeDescription desc, (w, h, f.str)) := by
    unfold sourceMatch
    rw [show (String.mk (lastSegment (buildImagePath ⟨p, desc, w, h, f⟩).data)).data =
      lastSegment (buildImagePath ⟨p, desc, w, h, f⟩).data from rfl, hseg, haux]
    simp [hne]
  unfold resolveSourceDims
  rw [hmatch]

/-- C7 witness: the amended round-trip at a concrete in-range spec. -/
theorem C7_roundtrip_amended_witness :
    sanitizeDescription "happy-duck" ≠ "" ∧ 100 ≤ 800 ∧ 800 ≤ 4096 ∧ 100 ≤ 600 ∧ 600 ≤ 4096 ∧
      resolveSourceDims
          (String.mk (lastSegment (buildImagePath ⟨"p", "happy-duck", 800, 600, .png⟩).data))
          (buildImagePath ⟨"p", "happy-duck", 800, 600, .png⟩) =
        .ok ⟨sanitizeDescription "happy-duck", 800, 600, ImgFormat.png.str⟩ :=
  ⟨by decide, by decide, by decide, by decide, by decide,
    C7_roundtrip_amended "p" "happy-duck" 800 600 .png (by decide) (by decide) (by decide)
      (by decide) (by decide)⟩
